import Mathlib

/-!
Verification development for the "Little Ai" real-time voice session manager
(`src/views/LiveView.tsx`) and its service helpers (`src/services/geminiService.ts`).

The TypeScript code is shallowly embedded: React state and refs become fields of
an explicit state record, the async start/handshake split becomes two atomic
steps (the synchronous part of `startSession` up to initiating the remote
connect, and the later resolution of the handshake promise), and the inbound
message handler becomes a pure function from a message and the current clock to
a new state plus a list of observable outputs (memory appends, tool responses,
scheduled playback, stopped sources).
-/

namespace LittleAi

/-! ### Base64 (geminiService.ts: `encodeBase64` / `decodeBase64`)

`encodeBase64` builds a binary string from the bytes (`String.fromCharCode`,
the identity on codes < 256) and applies the platform's `btoa`; `decodeBase64`
applies `atob` and reads the codes back (`charCodeAt`).  The platform pair
`btoa`/`atob` is standard RFC 4648 base64 over 8-bit code units, embedded here
directly over byte lists (`List Nat`, each < 256) and base64 character lists. -/

/-- The 64-character base64 alphabet used by `btoa`/`atob`. -/
def b64Alphabet : List Char :=
  "ABCDEFGHIJKLMNOPQRSTUVWXYZabcdefghijklmnopqrstuvwxyz0123456789+/".toList

/-- Sextet value (0..63) to base64 character. -/
def sextetChar (n : Nat) : Char := b64Alphabet.getD n 'A'

/-- Base64 character back to its sextet value. -/
def charSextet (c : Char) : Nat := b64Alphabet.findIdx (fun x => x == c)

/-- Model of `btoa ∘ fromCharCode*`: 3 input bytes become 4 base64 characters,
with `=` padding for a trailing 1- or 2-byte group. -/
def encodeBase64 : List Nat → List Char
  | [] => []
  | [b0] =>
    [sextetChar (b0 / 4), sextetChar (b0 % 4 * 16), '=', '=']
  | [b0, b1] =>
    [sextetChar (b0 / 4), sextetChar (b0 % 4 * 16 + b1 / 16), sextetChar (b1 % 16 * 4), '=']
  | b0 :: b1 :: b2 :: rest =>
    sextetChar (b0 / 4) :: sextetChar (b0 % 4 * 16 + b1 / 16) ::
      sextetChar (b1 % 16 * 4 + b2 / 64) :: sextetChar (b2 % 64) :: encodeBase64 rest

/-- Model of `charCodeAt* ∘ atob`: 4 base64 characters back to 3 bytes,
honouring `=` padding. -/
def decodeBase64 : List Char → List Nat
  | c0 :: c1 :: c2 :: c3 :: rest =>
    let s0 := charSextet c0
    let s1 := charSextet c1
    if c2 = '=' then
      [s0 * 4 + s1 / 16]
    else
      let s2 := charSextet c2
      if c3 = '=' then
        [s0 * 4 + s1 / 16, s1 % 16 * 16 + s2 / 4]
      else
        (s0 * 4 + s1 / 16) :: (s1 % 16 * 16 + s2 / 4) :: (s2 % 4 * 64 + charSextet c3) ::
          decodeBase64 rest
  | _ => []

/-! ### Retry wrapper (geminiService.ts: `validateApiKey` / `callWithRetry`) -/

/-- Is the first list an initial segment of the second? -/
def leadMatch : List Char → List Char → Bool
  | [], _ => true
  | _ :: _, [] => false
  | a :: as, b :: bs => a == b && leadMatch as bs

/-- Does `needle` occur contiguously in the list? -/
def hasSub (needle : List Char) : List Char → Bool
  | [] => leadMatch needle []
  | c :: t => leadMatch needle (c :: t) || hasSub needle t

/-- JavaScript `String.prototype.includes`. -/
def strHas (hay needle : String) : Bool := hasSub needle.toList hay.toList

/-- `validateApiKey` (geminiService.ts lines 7-11): absent (or empty, which is
falsy) key, then an OpenAI-style `sk-` key, are rejected with the
corresponding reason. -/
def validateApiKey : Option String → Bool × String
  | none => (false, "No API key found in the system environment.")
  | some k =>
    if k = "" then (false, "No API key found in the system environment.")
    else if leadMatch "sk-".toList k.toList then
      (false,
        "You are using an OpenAI key. This app requires a Google Gemini key from ai.google.dev.")
    else (true, "")

/-- `msg.includes('429') || msg.includes('quota') || msg.includes('RESOURCE_EXHAUSTED')`. -/
def isQuotaMsg (m : String) : Bool :=
  strHas m "429" || strHas m "quota" || strHas m "RESOURCE_EXHAUSTED"

/-- `msg.includes('403') || msg.includes('API key not valid') || msg.includes('PERMISSION_DENIED')`. -/
def isAuthMsg (m : String) : Bool :=
  strHas m "403" || strHas m "API key not valid" || strHas m "PERMISSION_DENIED"

/-- `msg.includes('404') || msg.includes('model not found')`. -/
def isNotFoundMsg (m : String) : Bool :=
  strHas m "404" || strHas m "model not found"

/-- The replacement message thrown on an auth-classified error. -/
def authErrText : String :=
  "API KEY ERROR: Your key is invalid or unauthorized. Use Google AI Studio."

/-- The replacement message thrown on a not-found-classified error. -/
def notFoundErrText : String :=
  "MODEL ERROR: The selected model is not available for your key."

/-- The replacement message thrown on a quota-classified error once the
retries are exhausted. -/
def quotaErrText : String :=
  "QUOTA EXCEEDED: You have reached the limit for this model. Try Flash mode."

/-- Outcome of one invocation of the wrapped `fn`. -/
inductive CallRes where
  | ok (v : Nat)
  | err (msg : String)
  deriving Repr, DecidableEq

deriving instance DecidableEq for Except

/-- Result of `callWithRetry`: the returned value or the thrown message,
plus the list of backoff delays slept (in ms), in order. -/
structure RetryOut where
  res : Except String Nat
  waits : List ℚ
  deriving Repr, DecidableEq

/-- The retry loop of `callWithRetry` (geminiService.ts lines 20-45), with
the attempt outcomes supplied by the oracle `att`.  `i` is the current
attempt index and `fuel` the number of retries still allowed
(`maxRetries - i`): on a quota-classified error with fuel left, sleep
`initialDelay * 2 ^ i` and try again; auth- and not-found-classified errors
are rethrown immediately with replacement messages; any other error is
rethrown as-is. -/
def retryGo (att : Nat → CallRes) (initialDelay : ℚ) : Nat → Nat → RetryOut
  | i, fuel =>
    match att i with
    | CallRes.ok v => ⟨Except.ok v, []⟩
    | CallRes.err m =>
      if isAuthMsg m then ⟨Except.error authErrText, []⟩
      else if isNotFoundMsg m then ⟨Except.error notFoundErrText, []⟩
      else if isQuotaMsg m then
        match fuel with
        | 0 => ⟨Except.error quotaErrText, []⟩
        | fuel' + 1 =>
          let r := retryGo att initialDelay (i + 1) fuel'
          ⟨r.res, initialDelay * 2 ^ i :: r.waits⟩
      else ⟨Except.error m, []⟩

/-- `callWithRetry` (geminiService.ts lines 16-46): validate the key, then
run up to `maxRetries + 1` attempts. -/
def callWithRetry (apiKey : Option String) (att : Nat → CallRes)
    (maxRetries : Nat) (initialDelay : ℚ) : RetryOut :=
  let auth := validateApiKey apiKey
  if auth.1 then retryGo att initialDelay 0 maxRetries
  else ⟨Except.error auth.2, []⟩

/-! ### LiveView session-manager state (LiveView.tsx) -/

/-- The component's own state: `isActive`/`isValidating`/`isMuted` (useState),
the transcript captions, and the ref cells `sessionRef`, `audioContextRef`
(input, 16 kHz), `outputAudioContextRef` (output, 24 kHz), `nextStartTimeRef`,
`sourcesRef` and `micStreamRef`.  External resources (sessions, audio
contexts, microphone streams, playback source nodes) are identified by
numeric ids. -/
structure CompState where
  isActive : Bool
  isValidating : Bool
  isMuted : Bool
  userInput : String
  aiOutput : String
  sessionRef : Option Nat
  inputCtxRef : Option Nat
  outputCtxRef : Option Nat
  nextStartTime : ℚ
  sources : List Nat
  micStreamRef : Option Nat
  deriving Repr, DecidableEq

/-- The component state plus the browser-side resources it touches:
which audio contexts are open, which microphone streams still have live
tracks, which remote sessions are open, the connect handshakes still in
flight (each recording the `inputCtx` id and the `isMuted` value captured by
the closure of the `startSession` call that initiated it), and the installed
`onaudioprocess` handler (recording the `inputCtx` it runs on and the
`isMuted` value its closure captured).  `fresh` supplies unused ids. -/
structure World where
  comp : CompState
  openContexts : List Nat
  liveMics : List Nat
  openSessions : List Nat
  pendingHs : List (Nat × Bool)
  capture : Option (Nat × Bool)
  fresh : Nat
  deriving Repr, DecidableEq

/-- The component before anything was started. -/
def initWorld : World :=
  { comp :=
      { isActive := false, isValidating := false, isMuted := false
        userInput := "", aiOutput := ""
        sessionRef := none, inputCtxRef := none, outputCtxRef := none
        nextStartTime := 0, sources := [], micStreamRef := none }
    openContexts := [], liveMics := [], openSessions := []
    pendingHs := [], capture := none, fresh := 0 }

/-- `stopSession` (LiveView.tsx lines 29-64): clear the active/validating
flags; close and null the session handle (close wrapped in try/catch); stop
every pending playback source (each stop wrapped in try/catch), clear the
set and reset `nextStartTimeRef` to 0; stop the microphone tracks and null
the stream ref; close each audio context unless already closed and null both
refs.  Closing a resource is modelled as erasing its id from the
corresponding open-resource list. -/
def stopSession (w : World) : World :=
  let c1 := { w.comp with isActive := false, isValidating := false }
  let sessions :=
    match c1.sessionRef with
    | some s => w.openSessions.erase s
    | none => w.openSessions
  let c2 := { c1 with sessionRef := none }
  let c3 := { c2 with sources := [], nextStartTime := 0 }
  let mics :=
    match c3.micStreamRef with
    | some m => w.liveMics.erase m
    | none => w.liveMics
  let c4 := { c3 with micStreamRef := none }
  let ctxs1 :=
    match c4.inputCtxRef with
    | some a => w.openContexts.erase a
    | none => w.openContexts
  let ctxs2 :=
    match c4.outputCtxRef with
    | some b => ctxs1.erase b
    | none => ctxs1
  let c5 := { c4 with inputCtxRef := none, outputCtxRef := none }
  { w with comp := c5, openSessions := sessions, liveMics := mics, openContexts := ctxs2 }

/-- The synchronous part of `startSession` (LiveView.tsx lines 82-119) on the
happy path (credential configured, microphone granted): set
`isValidating`, clear the transcripts, acquire a fresh microphone stream,
open a fresh pair of audio contexts, store all three refs, and initiate the
remote handshake (the `ai.live.connect` promise), whose closure captures the
new input context and the current `isMuted`.  There is no guard on
`isActive`/`isValidating`. -/
def startSessionA (w : World) : World :=
  let mic := w.fresh
  let inCtx := w.fresh + 1
  let outCtx := w.fresh + 2
  { comp :=
      { w.comp with
        isValidating := true
        userInput := "", aiOutput := ""
        micStreamRef := some mic
        inputCtxRef := some inCtx
        outputCtxRef := some outCtx }
    openContexts := w.openContexts ++ [inCtx, outCtx]
    liveMics := w.liveMics ++ [mic]
    openSessions := w.openSessions
    pendingHs := w.pendingHs ++ [(inCtx, w.comp.isMuted)]
    capture := w.capture
    fresh := w.fresh + 3 }

/-- Resolution of the oldest in-flight handshake: the remote session opens
(a fresh session id becomes open), `onopen` runs (`setIsActive(true)`,
`setIsValidating(false)`, then installation of the capture pipeline on the
input context recorded by the closure — the installation only succeeds if
that context is still open), and `sessionRef.current = await sessionPromise`
stores the handle.  Nothing in `stopSession` removes a pending handshake, so
this fires even if `stopSession` ran in between. -/
def hsResolve (w : World) : World :=
  match w.pendingHs with
  | [] => w
  | (inCtx, cm) :: rest =>
    let sid := w.fresh
    { w with
      comp := { w.comp with isActive := true, isValidating := false, sessionRef := some sid }
      openSessions := w.openSessions ++ [sid]
      pendingHs := rest
      capture := if inCtx ∈ w.openContexts then some (inCtx, cm) else w.capture
      fresh := w.fresh + 1 }

/-- `setIsMuted(!isMuted)` (LiveView.tsx line 277): flips the state flag but
does not touch the installed `onaudioprocess` closure. -/
def toggleMute (w : World) : World :=
  { w with comp := { w.comp with isMuted := !w.comp.isMuted } }

/-- One firing of `scriptProcessor.onaudioprocess` (LiveView.tsx lines
129-145).  The processor exists only while its input context is open; the
handler returns early when the `isMuted` value *captured by its closure*
is true, and otherwise sends the captured frame (returned in encoded form);
nothing is buffered. -/
def onaudioprocess (w : World) (frame : List Nat) : Option (List Char) :=
  match w.capture with
  | none => none
  | some (ctx, capturedMuted) =>
    if ctx ∈ w.openContexts then
      if capturedMuted then none else some (encodeBase64 frame)
    else none

/-! ### Inbound message handling (LiveView.tsx `onmessage`, lines 150-208) -/

/-- One entry of `message.toolCall.functionCalls`: its `id`, `name` and the
`info` string argument (`(fc.args as any).info`). -/
structure FunctionCall where
  id : String
  name : String
  info : String
  deriving Repr, DecidableEq

/-- One entry of `message.serverContent.modelTurn.parts`; `inline` models
`p.inlineData?.data` (the base64 payload, as characters). -/
structure Part where
  inline : Option (List Char)
  deriving Repr, DecidableEq

/-- A `LiveServerMessage`: tool calls (empty list when `message.toolCall` is
absent), the two optional transcripts, the model-turn parts (empty when
absent) and the `interrupted` flag. -/
structure ServerMessage where
  toolCalls : List FunctionCall
  inputTr : Option String
  outputTr : Option String
  parts : List Part
  interrupted : Bool
  deriving Repr, DecidableEq

/-- Observable outputs of one `onmessage` run: an invocation of the
caller-supplied `onSaveMemory` callback, a `sendToolResponse`, the
scheduling (`source.start`) of a decoded audio chunk, or the early stop of a
pending source on interruption. -/
inductive Output where
  | memAppend (info : String)
  | toolResp (id name result : String)
  | sched (data : List Char) (start dur : ℚ)
  | srcStopped (src : Nat)
  deriving Repr, DecidableEq

/-- The fixed acknowledgement payload of every tool response
(LiveView.tsx line 161). -/
def ackText : String := "I have saved that in my neural vault. I will remember it."

/-- LiveView.tsx lines 152-166: for each function call, in arrival order, if
its name is `save_important_info` invoke `onSaveMemory` with the `info`
argument and send exactly one tool response echoing the call's id and name
with the fixed acknowledgement payload. -/
def handleToolCalls : List FunctionCall → List Output
  | [] => []
  | fc :: rest =>
    (if fc.name = "save_important_info" then
      [Output.memAppend fc.info, Output.toolResp fc.id fc.name ackText]
    else []) ++ handleToolCalls rest

/-- Duration of a decoded chunk: `decodeAudioData` (geminiService.ts lines
162-171) views the decoded bytes as 16-bit mono samples
(`frameCount = bytes/2`) at 24000 Hz, and `buffer.duration` is
`frameCount / sampleRate`. -/
def chunkDur (data : List Char) : ℚ :=
  (((decodeBase64 data).length / 2 : ℕ) : ℚ) / 24000

/-- The scheduling rule of LiveView.tsx lines 191-195:
`nextStartTimeRef.current = Math.max(nextStartTimeRef.current, ctx.currentTime)`,
`source.start(nextStartTimeRef.current)`,
`nextStartTimeRef.current += buffer.duration`.  Returns the scheduled start
time and the advanced clock. -/
def scheduleChunk (nextStart now dur : ℚ) : ℚ × ℚ :=
  (max nextStart now, max nextStart now + dur)

/-- Result of the audio-chunk portion of `onmessage`: the advanced playback
clock, the updated pending-source set, the next unused id, and the
scheduling output. -/
structure AudioStep where
  nextStart : ℚ
  srcs : List Nat
  fresh : Nat
  outs : List Output

/-- `onmessage` (LiveView.tsx lines 150-208), in source order: handle the
tool calls; update the transcripts (skipping empty text); pick the *first*
part with inline data (`parts?.find(p => p.inlineData)`) and, if its payload
is non-empty and the output audio context ref is set, schedule it at
`max(nextStartTimeRef, ctx.currentTime)`, advance `nextStartTimeRef` by the
chunk duration and register a fresh source in `sourcesRef`; finally, on
`interrupted`, stop every pending source, clear the set and reset
`nextStartTimeRef` to 0.  `now` is `ctx.currentTime`. -/
def onmessage (w : World) (m : ServerMessage) (now : ℚ) : World × List Output :=
  let toolOuts := handleToolCalls m.toolCalls
  let userInput1 :=
    match m.inputTr with
    | some t => if t = "" then w.comp.userInput else t
    | none => w.comp.userInput
  let aiOutput1 :=
    match m.outputTr with
    | some t => if t = "" then w.comp.aiOutput else t
    | none => w.comp.aiOutput
  let audioData := (m.parts.find? (fun p => p.inline.isSome)).bind (fun p => p.inline)
  let audio : AudioStep :=
    match audioData, w.comp.outputCtxRef with
    | some d, some _ =>
      if d = [] then ⟨w.comp.nextStartTime, w.comp.sources, w.fresh, []⟩
      else
        let sp := scheduleChunk w.comp.nextStartTime now (chunkDur d)
        ⟨sp.2, w.comp.sources ++ [w.fresh], w.fresh + 1, [Output.sched d sp.1 (chunkDur d)]⟩
    | _, _ => ⟨w.comp.nextStartTime, w.comp.sources, w.fresh, []⟩
  let inter : ℚ × List Nat × List Output :=
    if m.interrupted then (0, [], audio.srcs.map Output.srcStopped)
    else (audio.nextStart, audio.srcs, [])
  ({ w with
      comp := { w.comp with
        userInput := userInput1, aiOutput := aiOutput1
        nextStartTime := inter.1, sources := inter.2.1 }
      fresh := audio.fresh },
    toolOuts ++ audio.outs ++ inter.2.2)

/-- The memory-append invocations among a list of outputs, in order. -/
def memAppends : List Output → List String
  | [] => []
  | Output.memAppend s :: r => s :: memAppends r
  | _ :: r => memAppends r

/-- The tool responses among a list of outputs, in order, as
(id, name, result) triples. -/
def toolResps : List Output → List (String × String × String)
  | [] => []
  | Output.toolResp i n res :: r => (i, n, res) :: toolResps r
  | _ :: r => toolResps r

/-! ### Action traces -/

/-- One atomic step of the component's event loop: the synchronous part of a
raw `startSession` call, a press of the main microphone button
(`onClick={isActive ? stopSession : startSession}` with
`disabled={isValidating}`), the resolution of an in-flight handshake, a
`stopSession` call, a mute toggle, an inbound server message at clock time
`now`, the natural end of a playback source (`source.onended`), or a firing
of the capture handler. -/
inductive Act where
  | startA
  | press
  | hsRes
  | stop
  | mute
  | msg (m : ServerMessage) (now : ℚ)
  | ended (src : Nat)
  | frame (samples : List Nat)
  deriving Repr, DecidableEq

def step (w : World) : Act → World
  | .startA => startSessionA w
  | .press =>
    if w.comp.isValidating then w
    else if w.comp.isActive then stopSession w
    else startSessionA w
  | .hsRes => hsResolve w
  | .stop => stopSession w
  | .mute => toggleMute w
  | .msg m now => (onmessage w m now).1
  | .ended src => { w with comp := { w.comp with sources := w.comp.sources.erase src } }
  | .frame _ => w

def run (w : World) : List Act → World
  | [] => w
  | a :: rest => run (step w a) rest

/-- A raw `startSession` call is permitted only from a state that is neither
`Active` nor `Validating` (which is all the UI allows). -/
def startOk (w : World) : Bool := !w.comp.isActive && !w.comp.isValidating

/-- Traces in which every raw `startSession` is issued from a
non-active, non-validating state. -/
def okTrace (w : World) : List Act → Bool
  | [] => true
  | a :: rest =>
    (match a with
      | .startA => startOk w
      | _ => true) && okTrace (step w a) rest

/-- Actions available through the UI alone (no raw `startSession`). -/
def uiAct : Act → Bool
  | .startA => false
  | _ => true

/-! ### Resource invariant -/

/-- The audio-context ids currently referenced by the component. -/
def ctxList (c : CompState) : List Nat :=
  c.inputCtxRef.toList ++ c.outputCtxRef.toList

/-- Invariant tying the component's refs to the open browser resources: the
open audio contexts are exactly the referenced ones, the live microphone
streams exactly the referenced one, and a component that is neither active
nor validating holds no resource refs. -/
def Inv (w : World) : Prop :=
  w.openContexts = ctxList w.comp ∧
  w.liveMics = w.comp.micStreamRef.toList ∧
  (w.comp.isActive = false → w.comp.isValidating = false →
    w.comp.inputCtxRef = none ∧ w.comp.outputCtxRef = none ∧ w.comp.micStreamRef = none)

/-! ### Teardown with the throwing operations explicit -/

/-- `session.close()`: succeeds on an open session, throws if the session is
already closed (e.g. the remote side closed it first). -/
def closeSessionOp (s : Nat) (sessions : List Nat) : Except String (List Nat) :=
  if s ∈ sessions then Except.ok (sessions.erase s)
  else Except.error "session already closed"

/-- `source.stop()`: throws `InvalidStateError` on a source that already
ended; either way the node does not play again.  `alreadyEnded` says which
sources would throw. -/
def stopSourceOp (alreadyEnded : Nat → Bool) (s : Nat) : Except String Unit :=
  if alreadyEnded s then Except.error "InvalidStateError" else Except.ok ()

/-- The `for (const source of sourcesRef.current)` loop, each iteration in
its own `try { source.stop() } catch (e) {}` (LiveView.tsx lines 42-46): a
throwing stop never prevents the remaining stops. -/
def stopSourcesLoop (alreadyEnded : Nat → Bool) : List Nat → Unit
  | [] => ()
  | s :: rest =>
    match stopSourceOp alreadyEnded s with
    | Except.ok _ => stopSourcesLoop alreadyEnded rest
    | Except.error _ => stopSourcesLoop alreadyEnded rest

/-- `stopSession` with its throwing operations explicit: the session close is
wrapped in `try`/`catch` (lines 34-38), every `source.stop()` is wrapped
(lines 43-45), and each context close is guarded by a state check (lines
55-60, modelled by the erase being a no-op on an already-closed context).
Any exception escaping the routine would surface as `Except.error`. -/
def stopSessionE (alreadyEnded : Nat → Bool) (w : World) : Except String World :=
  let c1 := { w.comp with isActive := false, isValidating := false }
  let sessions :=
    match c1.sessionRef with
    | some s =>
      match closeSessionOp s w.openSessions with
      | Except.ok l => l
      | Except.error _ => w.openSessions
    | none => w.openSessions
  let c2 := { c1 with sessionRef := none }
  let _ := stopSourcesLoop alreadyEnded c2.sources
  let c3 := { c2 with sources := [], nextStartTime := 0 }
  let mics :=
    match c3.micStreamRef with
    | some m => w.liveMics.erase m
    | none => w.liveMics
  let c4 := { c3 with micStreamRef := none }
  let ctxs1 :=
    match c4.inputCtxRef with
    | some a => w.openContexts.erase a
    | none => w.openContexts
  let ctxs2 :=
    match c4.outputCtxRef with
    | some b => ctxs1.erase b
    | none => ctxs1
  let c5 := { c4 with inputCtxRef := none, outputCtxRef := none }
  Except.ok
    { w with comp := c5, openSessions := sessions, liveMics := mics, openContexts := ctxs2 }

/-! ## Lemmas -/

lemma charSextet_sextetChar : ∀ n < 64, charSextet (sextetChar n) = n := by decide

lemma sextetChar_ne_pad : ∀ n < 64, sextetChar n ≠ '=' := by decide

theorem decode_encode (b : List Nat) (hb : ∀ x ∈ b, x < 256) :
    decodeBase64 (encodeBase64 b) = b := by
  match b with
  | [] => rfl
  | [b0] =>
    have h0 : b0 < 256 := hb b0 (by simp)
    have e0 : b0 / 4 < 64 := by omega
    have e1 : b0 % 4 * 16 < 64 := by omega
    simp [encodeBase64, decodeBase64, charSextet_sextetChar _ e0, charSextet_sextetChar _ e1]
    omega
  | [b0, b1] =>
    have h0 : b0 < 256 := hb b0 (by simp)
    have h1 : b1 < 256 := hb b1 (by simp)
    have e0 : b0 / 4 < 64 := by omega
    have e1 : b0 % 4 * 16 + b1 / 16 < 64 := by omega
    have e2 : b1 % 16 * 4 < 64 := by omega
    simp [encodeBase64, decodeBase64, sextetChar_ne_pad _ e2,
      charSextet_sextetChar _ e0, charSextet_sextetChar _ e1, charSextet_sextetChar _ e2]
    omega
  | b0 :: b1 :: b2 :: rest =>
    have h0 : b0 < 256 := hb b0 (by simp)
    have h1 : b1 < 256 := hb b1 (by simp)
    have h2 : b2 < 256 := hb b2 (by simp)
    have e0 : b0 / 4 < 64 := by omega
    have e1 : b0 % 4 * 16 + b1 / 16 < 64 := by omega
    have e2 : b1 % 16 * 4 + b2 / 64 < 64 := by omega
    have e3 : b2 % 64 < 64 := by omega
    have ih := decode_encode rest (by
      intro x hx
      exact hb x (by simp [hx]))
    simp [encodeBase64, decodeBase64, sextetChar_ne_pad _ e2, sextetChar_ne_pad _ e3,
      charSextet_sextetChar _ e0, charSextet_sextetChar _ e1, charSextet_sextetChar _ e2,
      charSextet_sextetChar _ e3, ih]
    omega

lemma inv_initWorld : Inv initWorld := by
  simp [Inv, initWorld, ctxList]

lemma inv_stopSession (w : World) (h : Inv w) : Inv (stopSession w) := by
  obtain ⟨hc, hm, _⟩ := h
  refine ⟨?_, ?_, ?_⟩
  · simp only [stopSession, ctxList, hc]
    cases hi : w.comp.inputCtxRef <;> cases ho : w.comp.outputCtxRef <;>
      simp [ctxList, hi, ho, List.erase_cons_head]
  · simp only [stopSession, hm]
    cases hmic : w.comp.micStreamRef <;> simp [hmic]
  · simp [stopSession]

lemma inv_startSessionA (w : World) (h : Inv w) (hok : startOk w = true) :
    Inv (startSessionA w) := by
  obtain ⟨hc, hm, himp⟩ := h
  simp only [startOk, Bool.and_eq_true, Bool.not_eq_true'] at hok
  obtain ⟨hi, ho, hmic⟩ := himp hok.1 hok.2
  refine ⟨?_, ?_, ?_⟩
  · simp [startSessionA, ctxList, hc, hi, ho]
  · simp [startSessionA, hm, hmic]
  · simp [startSessionA]

lemma inv_hsResolve (w : World) (h : Inv w) : Inv (hsResolve w) := by
  obtain ⟨hc, hm, himp⟩ := h
  cases hp : w.pendingHs with
  | nil => simpa [hsResolve, hp] using ⟨hc, hm, himp⟩
  | cons p rest =>
    refine ⟨?_, ?_, ?_⟩ <;> simp [hsResolve, hp, hc, hm, ctxList]

/-- `onmessage` touches only the transcripts, the pending-source set, the
playback clock and the fresh counter: every other field is unchanged. -/
lemma onmessage_frame (w : World) (m : ServerMessage) (now : ℚ) :
    (onmessage w m now).1.openContexts = w.openContexts ∧
    (onmessage w m now).1.liveMics = w.liveMics ∧
    (onmessage w m now).1.comp.inputCtxRef = w.comp.inputCtxRef ∧
    (onmessage w m now).1.comp.outputCtxRef = w.comp.outputCtxRef ∧
    (onmessage w m now).1.comp.micStreamRef = w.comp.micStreamRef ∧
    (onmessage w m now).1.comp.isActive = w.comp.isActive ∧
    (onmessage w m now).1.comp.isValidating = w.comp.isValidating := by
  exact ⟨rfl, rfl, rfl, rfl, rfl, rfl, rfl⟩

lemma inv_onmessage (w : World) (h : Inv w) (m : ServerMessage) (now : ℚ) :
    Inv (onmessage w m now).1 := by
  obtain ⟨hc, hm, himp⟩ := h
  obtain ⟨f1, f2, f3, f4, f5, f6, f7⟩ := onmessage_frame w m now
  refine ⟨?_, ?_, ?_⟩
  · rw [f1, hc]; simp [ctxList, f3, f4]
  · rw [f2, hm, f5]
  · intro ha hv
    rw [f6] at ha; rw [f7] at hv
    rw [f3, f4, f5]
    exact himp ha hv

lemma inv_step (w : World) (a : Act) (h : Inv w)
    (hok : a = Act.startA → startOk w = true) : Inv (step w a) := by
  cases a with
  | startA => exact inv_startSessionA w h (hok rfl)
  | press =>
    simp only [step]
    cases hv : w.comp.isValidating with
    | true => simpa [hv] using h
    | false =>
      cases ha : w.comp.isActive with
      | true => simpa [hv, ha] using inv_stopSession w h
      | false =>
        have hok' : startOk w = true := by simp [startOk, hv, ha]
        simpa [hv, ha] using inv_startSessionA w h hok'
  | hsRes => exact inv_hsResolve w h
  | stop => exact inv_stopSession w h
  | mute =>
    obtain ⟨hc, hm, himp⟩ := h
    exact ⟨by simpa [toggleMute, ctxList, step] using hc,
      by simpa [toggleMute, step] using hm,
      by simpa [toggleMute, step] using himp⟩
  | msg m now => exact inv_onmessage w h m now
  | ended src =>
    obtain ⟨hc, hm, himp⟩ := h
    exact ⟨by simpa [ctxList, step] using hc, by simpa [step] using hm,
      by simpa [step] using himp⟩
  | frame samples => exact h

lemma inv_run (w : World) (acts : List Act) (h : Inv w)
    (hok : okTrace w acts = true) : Inv (run w acts) := by
  induction acts generalizing w with
  | nil => exact h
  | cons a rest ih =>
    simp only [okTrace, Bool.and_eq_true] at hok
    exact ih (step w a) (inv_step w a h (fun he => by subst he; exact hok.1)) hok.2

/-- A trace with no raw `startSession` action satisfies the guard from any
starting state. -/
lemma okTrace_of_ui (w : World) (acts : List Act) (h : acts.all uiAct = true) :
    okTrace w acts = true := by
  induction acts generalizing w with
  | nil => rfl
  | cons a rest ih =>
    simp only [List.all_cons, Bool.and_eq_true] at h
    simp only [okTrace, Bool.and_eq_true]
    refine ⟨?_, ih (step w a) h.2⟩
    cases a <;> simp_all [uiAct]

/-- From any state satisfying the resource invariant, `stopSession` leaves
`Idle`, no pending sources, a zeroed playback clock, no open audio contexts
and no live microphone stream. -/
lemma stopSession_clean (w : World) (h : Inv w) :
    (stopSession w).comp.isActive = false ∧
    (stopSession w).comp.isValidating = false ∧
    (stopSession w).comp.sources = [] ∧
    (stopSession w).comp.nextStartTime = 0 ∧
    (stopSession w).openContexts = [] ∧
    (stopSession w).liveMics = [] := by
  obtain ⟨hc, hm, _⟩ := h
  refine ⟨rfl, rfl, rfl, rfl, ?_, ?_⟩
  · simp only [stopSession]
    cases hi : w.comp.inputCtxRef <;> cases ho : w.comp.outputCtxRef <;>
      simp_all [ctxList, List.erase_cons_head]
  · simp only [stopSession]
    cases hmic : w.comp.micStreamRef <;> simp_all

/-- The teardown is idempotent. -/
lemma stopSession_idem (w : World) : stopSession (stopSession w) = stopSession w := rfl

/-- The exception-explicit teardown never lets an exception escape and
computes exactly the plain teardown, whatever throws along the way. -/
lemma stopSessionE_ok (alreadyEnded : Nat → Bool) (w : World) :
    stopSessionE alreadyEnded w = Except.ok (stopSession w) := by
  simp only [stopSessionE, stopSession, closeSessionOp]
  cases hs : w.comp.sessionRef with
  | none => rfl
  | some s =>
    by_cases hmem : s ∈ w.openSessions
    · simp [hmem]
    · simp [hmem, List.erase_of_not_mem hmem]

lemma retryGo_quota (att : Nat → CallRes) (msgs : Nat → String) (d : ℚ)
    (hatt : ∀ i, att i = CallRes.err (msgs i))
    (hq : ∀ i, isQuotaMsg (msgs i) = true)
    (ha : ∀ i, isAuthMsg (msgs i) = false)
    (hn : ∀ i, isNotFoundMsg (msgs i) = false) :
    ∀ fuel i, retryGo att d i fuel =
      ⟨Except.error quotaErrText, (List.range fuel).map (fun k => d * 2 ^ (i + k))⟩ := by
  intro fuel
  induction fuel with
  | zero =>
    intro i
    simp [retryGo, hatt i, hq i, ha i, hn i]
  | succ fuel ih =>
    intro i
    have hexp : ∀ k : Nat, i + 1 + k = i + (k + 1) := fun k => by omega
    simp [retryGo, hatt i, hq i, ha i, hn i, ih (i + 1), List.range_succ_eq_map,
      List.map_map, Function.comp, hexp]

lemma retryGo_auth (att : Nat → CallRes) (m : String) (d : ℚ) (fuel : Nat)
    (hatt : att 0 = CallRes.err m) (hm : isAuthMsg m = true) :
    retryGo att d 0 fuel = ⟨Except.error authErrText, []⟩ := by
  cases fuel <;> simp [retryGo, hatt, hm]

lemma retryGo_notFound (att : Nat → CallRes) (m : String) (d : ℚ) (fuel : Nat)
    (hatt : att 0 = CallRes.err m) (hm : isNotFoundMsg m = true)
    (hm2 : isAuthMsg m = false) :
    retryGo att d 0 fuel = ⟨Except.error notFoundErrText, []⟩ := by
  cases fuel <;> simp [retryGo, hatt, hm, hm2]

lemma retryGo_other (att : Nat → CallRes) (m : String) (d : ℚ) (fuel : Nat)
    (hatt : att 0 = CallRes.err m) (h1 : isAuthMsg m = false)
    (h2 : isNotFoundMsg m = false) (h3 : isQuotaMsg m = false) :
    retryGo att d 0 fuel = ⟨Except.error m, []⟩ := by
  cases fuel <;> simp [retryGo, hatt, h1, h2, h3]

lemma handleToolCalls_all_save (fcs : List FunctionCall)
    (h : ∀ fc ∈ fcs, fc.name = "save_important_info") :
    memAppends (handleToolCalls fcs) = fcs.map (fun fc => fc.info) ∧
    toolResps (handleToolCalls fcs) = fcs.map (fun fc => (fc.id, fc.name, ackText)) ∧
    (handleToolCalls fcs).length = 2 * fcs.length := by
  induction fcs with
  | nil => simp [handleToolCalls, memAppends, toolResps]
  | cons fc rest ih =>
    have hname := h fc (by simp)
    have ihr := ih (fun x hx => h x (by simp [hx]))
    refine ⟨?_, ?_, ?_⟩
    · simp [handleToolCalls, hname, memAppends, toolResps, ihr.1]
    · simp [handleToolCalls, hname, memAppends, toolResps, ihr.2.1]
    · simp [handleToolCalls, hname, ihr.2.2]
      omega

/-! ## Claims -/

/-- C1: the claim says that when `stop()` runs while a `start()` handshake is
still in flight, the later resolution of the handshake is a no-op (system
stays Idle, no session handle retained).  The code has no such guard:
`onopen` still sets `isActive` and `sessionRef.current = await sessionPromise`
still stores the handle, resurrecting the torn-down session and leaving the
freshly opened remote session open and unreferenced by any cleanup that
already ran.  This theorem evaluates the code at the failing input
`startSession(); stopSession(); handshake resolves`. -/
theorem c1_late_handshake_resurrects :
    (stopSession (startSessionA initWorld)).comp.isActive = false ∧
    (stopSession (startSessionA initWorld)).comp.sessionRef = none ∧
    (stopSession (startSessionA initWorld)).openSessions = [] ∧
    (hsResolve (stopSession (startSessionA initWorld))).comp.isActive = true ∧
    (hsResolve (stopSession (startSessionA initWorld))).comp.sessionRef = some 3 ∧
    (hsResolve (stopSession (startSessionA initWorld))).openSessions = [3] := by
  decide

/-- C2 counterexample: `startSession` itself has no `Validating`/`Active`
guard.  Called in the `Active` state it is not a no-op: it flips
`isValidating`, acquires a second microphone stream and a second pair of
audio contexts. -/
theorem c2_start_not_noop :
    (run initWorld [Act.startA, Act.hsRes]).comp.isActive = true ∧
    step (run initWorld [Act.startA, Act.hsRes]) Act.startA ≠
      run initWorld [Act.startA, Act.hsRes] ∧
    (step (run initWorld [Act.startA, Act.hsRes]) Act.startA).liveMics.length = 2 := by
  decide

/-- C2 (amended): the no-op guard lives in the UI entry point, not in
`startSession`: the main button is disabled while `Validating` (a press is
the identity) and wired to `stopSession` while `Active`, so `startSession`
is only ever entered from a non-active, non-validating state, and over every
button-driven trace at most one microphone stream and one pair of audio
contexts are live. -/
theorem c2_ui_guard (w : World) (acts : List Act) (hui : acts.all uiAct = true) :
    (w.comp.isValidating = true → step w Act.press = w) ∧
    (w.comp.isValidating = false → w.comp.isActive = true →
      step w Act.press = stopSession w) ∧
    (run initWorld acts).liveMics.length ≤ 1 ∧
    (run initWorld acts).openContexts.length ≤ 2 := by
  obtain ⟨hc, hm, _⟩ := inv_run initWorld acts inv_initWorld (okTrace_of_ui initWorld acts hui)
  refine ⟨fun hv => by simp [step, hv], fun hv ha => by simp [step, hv, ha], ?_, ?_⟩
  · rw [hm]
    cases (run initWorld acts).comp.micStreamRef <;> simp
  · rw [hc]
    have h1 : (run initWorld acts).comp.inputCtxRef.toList.length ≤ 1 := by
      cases (run initWorld acts).comp.inputCtxRef <;> simp
    have h2 : (run initWorld acts).comp.outputCtxRef.toList.length ≤ 1 := by
      cases (run initWorld acts).comp.outputCtxRef <;> simp
    simp only [ctxList, List.length_append]
    omega

/-- Witness for C2: a concrete button-driven trace. -/
theorem c2_ui_guard_witness :
    (run initWorld [Act.press, Act.hsRes, Act.press, Act.press]).liveMics.length ≤ 1 ∧
    (run initWorld [Act.press, Act.hsRes, Act.press, Act.press]).openContexts.length ≤ 2 :=
  ⟨(c2_ui_guard initWorld [Act.press, Act.hsRes, Act.press, Act.press] (by decide)).2.2.1,
   (c2_ui_guard initWorld [Act.press, Act.hsRes, Act.press, Act.press] (by decide)).2.2.2⟩

/-- C3: the claim says a frame captured while `muted == true` is never
transmitted.  The `onaudioprocess` handler reads the `isMuted` value captured
by the closure of the render in which the session was started (a stale
closure: the component stores every other callback-accessed value in a ref,
but `isMuted` is a `useState` value), so after starting unmuted and then
muting, a captured frame is still transmitted.  This theorem evaluates the
code at the failing input `start unmuted; handshake opens; toggle mute;
capture a frame`. -/
theorem c3_stale_mute_transmits :
    (toggleMute (hsResolve (startSessionA initWorld))).comp.isMuted = true ∧
    onaudioprocess (toggleMute (hsResolve (startSessionA initWorld))) [7, 200] =
      some (encodeBase64 [7, 200]) := by
  decide

/-- C4 counterexample: with two raw `startSession` calls (no guard stops
them), the first pair of audio contexts and the first microphone stream are
leaked — the refs are overwritten — so after the final `stopSession` two
audio contexts are still open and one microphone stream still live. -/
theorem c4_double_start_leaks :
    (stopSession (run initWorld [Act.startA, Act.startA])).comp.isActive = false ∧
    (stopSession (run initWorld [Act.startA, Act.startA])).openContexts = [1, 2] ∧
    (stopSession (run initWorld [Act.startA, Act.startA])).liveMics = [0] := by
  decide

/-- C4 (amended): restricted to traces in which every `start()` is issued
from a non-active, non-validating state (all the UI allows), any sequence of
calls interleaved with inbound events followed by a final `stop()` ends in
`Idle` with no pending sources, `nextPlaybackTime = 0`, no open audio
contexts and no live microphone tracks; the teardown is idempotent and,
with its throwing operations explicit, never lets an exception escape while
still performing every cleanup step. -/
theorem c4_guarded_teardown (acts : List Act) (w : World) (alreadyEnded : Nat → Bool)
    (hok : okTrace initWorld acts = true) :
    (stopSession (run initWorld acts)).comp.isActive = false ∧
    (stopSession (run initWorld acts)).comp.isValidating = false ∧
    (stopSession (run initWorld acts)).comp.sources = [] ∧
    (stopSession (run initWorld acts)).comp.nextStartTime = 0 ∧
    (stopSession (run initWorld acts)).openContexts = [] ∧
    (stopSession (run initWorld acts)).liveMics = [] ∧
    stopSession (stopSession w) = stopSession w ∧
    stopSessionE alreadyEnded w = Except.ok (stopSession w) := by
  obtain ⟨a, b, c, d, e, f⟩ :=
    stopSession_clean (run initWorld acts) (inv_run initWorld acts inv_initWorld hok)
  exact ⟨a, b, c, d, e, f, stopSession_idem w, stopSessionE_ok alreadyEnded w⟩

/-- Witness for C4: a concrete guarded trace, and a world whose session
handle points at an already-closed session (so the close throws and is
swallowed). -/
theorem c4_guarded_teardown_witness :
    (stopSession (run initWorld [Act.startA, Act.hsRes, Act.stop])).openContexts = [] ∧
    stopSessionE (fun _ => true)
        { initWorld with comp := { initWorld.comp with sessionRef := some 5 } } =
      Except.ok (stopSession
        { initWorld with comp := { initWorld.comp with sessionRef := some 5 } }) :=
  ⟨(c4_guarded_teardown [Act.startA, Act.hsRes, Act.stop] initWorld
      (fun _ => true) (by decide)).2.2.2.2.1,
   (c4_guarded_teardown [Act.startA, Act.hsRes, Act.stop]
      { initWorld with comp := { initWorld.comp with sessionRef := some 5 } }
      (fun _ => true) (by decide)).2.2.2.2.2.2.2⟩

/-- C5: an audio-chunk message is scheduled at
`max(nextPlaybackTime, currentClockTime)` and advances `nextPlaybackTime` by
the chunk's duration; two consecutively scheduled chunks never overlap; and
on the concrete 0.5 s / 0.3 s scenario the chunks are scheduled at 0 and 0.5
with the clock ending at 0.8. -/
theorem c5_playback_scheduling (w : World) (m : ServerMessage) (now : ℚ)
    (p : Part) (d : List Char)
    (h0 : m.toolCalls = [])
    (h1 : m.parts.find? (fun q => q.inline.isSome) = some p)
    (h2 : p.inline = some d) (h3 : d ≠ [])
    (h4 : w.comp.outputCtxRef.isSome = true)
    (h5 : m.interrupted = false) :
    (onmessage w m now).2 =
      [Output.sched d (scheduleChunk w.comp.nextStartTime now (chunkDur d)).1 (chunkDur d)] ∧
    (onmessage w m now).1.comp.nextStartTime =
      (scheduleChunk w.comp.nextStartTime now (chunkDur d)).2 ∧
    (scheduleChunk w.comp.nextStartTime now (chunkDur d)).1 =
      max w.comp.nextStartTime now ∧
    (scheduleChunk w.comp.nextStartTime now (chunkDur d)).2 =
      max w.comp.nextStartTime now + chunkDur d ∧
    (∀ n0 t1 d1 t2 d2 : ℚ,
      (scheduleChunk n0 t1 d1).1 + d1 ≤ (scheduleChunk (scheduleChunk n0 t1 d1).2 t2 d2).1) ∧
    scheduleChunk 0 0 (1 / 2) = (0, 1 / 2) ∧
    scheduleChunk (1 / 2) (1 / 10) (3 / 10) = (1 / 2, 4 / 5) := by
  obtain ⟨ctx, hctx⟩ := Option.isSome_iff_exists.mp h4
  refine ⟨?_, ?_, rfl, rfl, ?_, ?_, ?_⟩
  · simp [onmessage, h0, h1, h2, h3, hctx, h5, handleToolCalls]
  · simp [onmessage, h1, h2, h3, hctx, h5]
  · intro n0 t1 d1 t2 d2
    simp only [scheduleChunk]
    exact le_max_left _ _
  · norm_num [scheduleChunk]
  · norm_num [scheduleChunk]

/-- Witness for C5: a concrete 6-byte chunk scheduled on a freshly started
component. -/
theorem c5_playback_scheduling_witness :
    (onmessage (startSessionA initWorld)
        ⟨[], none, none, [Part.mk (some "AAAAAAAA".toList)], false⟩ 5).2 =
      [Output.sched ("AAAAAAAA".toList)
        (scheduleChunk (startSessionA initWorld).comp.nextStartTime 5
          (chunkDur ("AAAAAAAA".toList))).1
        (chunkDur ("AAAAAAAA".toList))] :=
  (c5_playback_scheduling (startSessionA initWorld)
    ⟨[], none, none, [Part.mk (some "AAAAAAAA".toList)], false⟩ 5
    (Part.mk (some "AAAAAAAA".toList)) ("AAAAAAAA".toList)
    rfl (by decide) rfl (by decide) (by decide) rfl).1

/-- C6: an interruption message with N pending sources stops every one of
them, leaves the pending set empty and resets `nextPlaybackTime` to 0. -/
theorem c6_interruption_clears (w : World) (m : ServerMessage) (now : ℚ)
    (h1 : m.toolCalls = []) (h2 : m.parts = []) (h3 : m.interrupted = true) :
    (onmessage w m now).1.comp.sources = [] ∧
    (onmessage w m now).1.comp.nextStartTime = 0 ∧
    (onmessage w m now).2 = w.comp.sources.map Output.srcStopped ∧
    (onmessage w m now).2.length = w.comp.sources.length := by
  refine ⟨?_, ?_, ?_, ?_⟩ <;> simp [onmessage, h1, h2, h3, handleToolCalls]

/-- Witness for C6: three pending sources, all stopped. -/
theorem c6_interruption_clears_witness :
    (onmessage { initWorld with comp := { initWorld.comp with sources := [4, 5, 6], nextStartTime := 7 } } ⟨[], none, none, [], true⟩ 2).1.comp.sources = [] ∧
    (onmessage { initWorld with comp := { initWorld.comp with sources := [4, 5, 6], nextStartTime := 7 } } ⟨[], none, none, [], true⟩ 2).1.comp.nextStartTime = 0 ∧
    (onmessage { initWorld with comp := { initWorld.comp with sources := [4, 5, 6], nextStartTime := 7 } } ⟨[], none, none, [], true⟩ 2).2 =
      ({ initWorld with comp := { initWorld.comp with sources := [4, 5, 6], nextStartTime := 7 } } : World).comp.sources.map Output.srcStopped ∧
    (onmessage { initWorld with comp := { initWorld.comp with sources := [4, 5, 6], nextStartTime := 7 } } ⟨[], none, none, [], true⟩ 2).2.length =
      ({ initWorld with comp := { initWorld.comp with sources := [4, 5, 6], nextStartTime := 7 } } : World).comp.sources.length :=
  c6_interruption_clears
    { initWorld with comp := { initWorld.comp with sources := [4, 5, 6], nextStartTime := 7 } }
    ⟨[], none, none, [], true⟩ 2 rfl rfl rfl

/-- C7: a tool-call message whose K calls are all `save_important_info`
produces exactly K memory-append invocations carrying each call's `info`, in
arrival order, and exactly K tool responses echoing each call's id with the
fixed acknowledgement payload, in arrival order. -/
theorem c7_tool_call_protocol (w : World) (now : ℚ) (fcs : List FunctionCall)
    (h : ∀ fc ∈ fcs, fc.name = "save_important_info") :
    (onmessage w ⟨fcs, none, none, [], false⟩ now).2 = handleToolCalls fcs ∧
    memAppends (handleToolCalls fcs) = fcs.map (fun fc => fc.info) ∧
    toolResps (handleToolCalls fcs) = fcs.map (fun fc => (fc.id, fc.name, ackText)) ∧
    (handleToolCalls fcs).length = 2 * fcs.length := by
  obtain ⟨h1, h2, h3⟩ := handleToolCalls_all_save fcs h
  exact ⟨by simp [onmessage], h1, h2, h3⟩

/-- Witness for C7: two `save_important_info` calls. -/
theorem c7_tool_call_protocol_witness :
    memAppends (handleToolCalls
        [⟨"abc", "save_important_info", "User birthday is March 5"⟩,
         ⟨"xyz", "save_important_info", "Likes tea"⟩]) =
      ["User birthday is March 5", "Likes tea"] ∧
    toolResps (handleToolCalls
        [⟨"abc", "save_important_info", "User birthday is March 5"⟩,
         ⟨"xyz", "save_important_info", "Likes tea"⟩]) =
      [("abc", "save_important_info", ackText), ("xyz", "save_important_info", ackText)] := by
  have h := c7_tool_call_protocol initWorld 0
    [⟨"abc", "save_important_info", "User birthday is March 5"⟩,
     ⟨"xyz", "save_important_info", "Likes tea"⟩] (by decide)
  exact ⟨h.2.1.trans (by decide), h.2.2.1.trans (by decide)⟩

/-- C8: the one-shot retry wrapper retries quota-classified errors with
exponential backoff (`initialDelay * 2 ^ i` before attempt `i + 1`, up to
`maxRetries` extra attempts), fails immediately with no retry on
auth-classified errors and on not-found-classified errors, rethrows any
other error as-is, and classifies by substring matching on the message. -/
theorem c8_retry_policy
    (key : Option String) (hkey : (validateApiKey key).1 = true)
    (maxR : Nat) (d : ℚ)
    (attQ : Nat → CallRes) (msgs : Nat → String)
    (hq1 : ∀ i, attQ i = CallRes.err (msgs i))
    (hq2 : ∀ i, isQuotaMsg (msgs i) = true)
    (hq3 : ∀ i, isAuthMsg (msgs i) = false)
    (hq4 : ∀ i, isNotFoundMsg (msgs i) = false)
    (attA : Nat → CallRes) (ma : String)
    (ha1 : attA 0 = CallRes.err ma) (ha2 : isAuthMsg ma = true)
    (attN : Nat → CallRes) (mn : String)
    (hn1 : attN 0 = CallRes.err mn) (hn2 : isNotFoundMsg mn = true) (hn3 : isAuthMsg mn = false)
    (attO : Nat → CallRes) (mo : String)
    (ho1 : attO 0 = CallRes.err mo) (ho2 : isAuthMsg mo = false)
    (ho3 : isNotFoundMsg mo = false) (ho4 : isQuotaMsg mo = false) :
    callWithRetry key attQ maxR d =
      ⟨Except.error quotaErrText, (List.range maxR).map (fun i => d * 2 ^ i)⟩ ∧
    callWithRetry key attA maxR d = ⟨Except.error authErrText, []⟩ ∧
    callWithRetry key attN maxR d = ⟨Except.error notFoundErrText, []⟩ ∧
    callWithRetry key attO maxR d = ⟨Except.error mo, []⟩ ∧
    isQuotaMsg "429 RESOURCE_EXHAUSTED: quota exceeded" = true ∧
    isAuthMsg "403 PERMISSION_DENIED: API key not valid" = true ∧
    isNotFoundMsg "404 model not found" = true ∧
    isQuotaMsg "some other failure" = false ∧
    isAuthMsg "some other failure" = false ∧
    isNotFoundMsg "some other failure" = false := by
  refine ⟨?_, ?_, ?_, ?_, by decide, by decide, by decide, by decide, by decide, by decide⟩
  · rw [callWithRetry]
    simp only [hkey, if_true]
    rw [retryGo_quota attQ msgs d hq1 hq2 hq3 hq4 maxR 0]
    simp [Nat.zero_add]
  · rw [callWithRetry]
    simp only [hkey, if_true]
    exact retryGo_auth attA ma d maxR ha1 ha2
  · rw [callWithRetry]
    simp only [hkey, if_true]
    exact retryGo_notFound attN mn d maxR hn1 hn2 hn3
  · rw [callWithRetry]
    simp only [hkey, if_true]
    exact retryGo_other attO mo d maxR ho1 ho2 ho3 ho4

/-- Witness for C8: the code's default parameters (maxRetries 2, delay
2000 ms) on an always-quota-failing call sleep 2000 then 4000 ms. -/
theorem c8_retry_policy_witness :
    callWithRetry (some "GEMKEY") (fun _ => CallRes.err "quota") 2 2000 =
      ⟨Except.error quotaErrText, [2000, 4000]⟩ :=
  ((c8_retry_policy (some "GEMKEY") (by decide) 2 2000
    (fun _ => CallRes.err "quota") (fun _ => "quota")
    (fun _ => rfl) (fun _ => (by decide : isQuotaMsg "quota" = true))
    (fun _ => (by decide : isAuthMsg "quota" = false))
    (fun _ => (by decide : isNotFoundMsg "quota" = false))
    (fun _ => CallRes.err "403") "403" rfl (by decide)
    (fun _ => CallRes.err "404") "404" rfl (by decide) (by decide)
    (fun _ => CallRes.err "boom") "boom" rfl (by decide) (by decide) (by decide)).1).trans
    (by norm_num [List.range_succ])

/-- C9: the base64 encode/decode pair used for the audio payloads is a round
trip on every byte array. -/
theorem c9_base64_roundtrip (b : List Nat) (hb : ∀ x ∈ b, x < 256) :
    decodeBase64 (encodeBase64 b) = b :=
  decode_encode b hb

/-- Witness for C9: a concrete byte array through the round trip. -/
theorem c9_base64_roundtrip_witness :
    decodeBase64 (encodeBase64 [0, 77, 255, 10]) = [0, 77, 255, 10] :=
  c9_base64_roundtrip [0, 77, 255, 10] (by decide)

/-- C10: when a model turn carries several parts with inline audio, only the
first is decoded and scheduled (`parts?.find(p => p.inlineData)`); every
further audio part in the same message is dropped: exactly one source is
scheduled, carrying the first part's payload, whatever `ps` contains. -/
theorem c10_first_audio_only (w : World) (ps : List Part) (p : Part) (d : List Char)
    (now : ℚ) (h1 : p.inline = some d) (h2 : d ≠ [])
    (h3 : w.comp.outputCtxRef.isSome = true) :
    (onmessage w ⟨[], none, none, p :: ps, false⟩ now).2 =
      [Output.sched d (scheduleChunk w.comp.nextStartTime now (chunkDur d)).1 (chunkDur d)] ∧
    (onmessage w ⟨[], none, none, p :: ps, false⟩ now).1.comp.sources =
      w.comp.sources ++ [w.fresh] ∧
    (onmessage w ⟨[], none, none, p :: ps, false⟩ now).2.length = 1 := by
  have hfind : (p :: ps).find? (fun q => q.inline.isSome) = some p :=
    List.find?_cons_of_pos _ (by simp [h1])
  obtain ⟨ctx, hctx⟩ := Option.isSome_iff_exists.mp h3
  refine ⟨?_, ?_, ?_⟩ <;> simp [onmessage, hfind, h1, h2, hctx, handleToolCalls]

/-- Witness for C10: two audio-bearing parts in one message; only the first
payload is scheduled. -/
theorem c10_first_audio_only_witness :
    (onmessage (startSessionA initWorld)
        ⟨[], none, none,
          [Part.mk (some "AAAA".toList), Part.mk (some "BBBB".toList)], false⟩ 0).2 =
      [Output.sched ("AAAA".toList)
        (scheduleChunk (startSessionA initWorld).comp.nextStartTime 0
          (chunkDur ("AAAA".toList))).1
        (chunkDur ("AAAA".toList))] :=
  (c10_first_audio_only (startSessionA initWorld) [Part.mk (some "BBBB".toList)]
    (Part.mk (some "AAAA".toList)) ("AAAA".toList) 0 rfl (by decide) (by decide)).1

end LittleAi
